import Mathlib

/-!
Verification of the crawl-progress lifecycle tracker embedded from the
`KnowledgeBasePage` component (`src/unnamed/part_005`).  The tracker keeps an
in-memory list of `CrawlProgressData` items, mirrors them into a persisted
key-value cache (`localStorage`: the `active_crawls` id list and one
`crawl_progress_<id>` snapshot per job), reconciles persisted state against the
server on startup, and exposes completion / error / stop / dismiss handlers.

The embedding below is a direct translation of the component's handlers into
pure state-passing functions over `TrackerState`.  JavaScript `Map`
deduplication, `localStorage` reads/writes, `fetch` outcomes and `setTimeout`
grace periods are modelled explicitly; timestamps are `Nat` milliseconds.
-/

namespace Archon

/-- One tracked job, the `CrawlProgressData` objects held in the
`progressItems` React state (only the fields the tracker logic reads). -/
structure CrawlProgressData where
  progressId : String
  status : String
  error : Option String := none
  progress : Nat := 0
  message : String := ""
  lastUpdated : Nat := 0
  uploadType : Option String := none
  fileName : Option String := none
  currentUrl : Option String := none
  needsVerification : Bool := false
deriving Repr, DecidableEq

/-- A persisted snapshot: the serialized item plus the `startedAt` stamp that
`handleStartCrawl` adds when writing `crawl_progress_<id>`. -/
structure Snapshot where
  item : CrawlProgressData
  startedAt : Option Nat := none
deriving Repr, DecidableEq

/-- A `localStorage` value for a `crawl_progress_<id>` key: either a snapshot
that parses, or junk on which `JSON.parse` throws. -/
inductive StoredVal where
  | junk : StoredVal
  | snap : Snapshot → StoredVal
deriving Repr, DecidableEq

/-- A scheduled `setTimeout` that will remove a progress item after a grace
period; `capturedLen` is the closure-captured `progressItems.length`. -/
structure PendingRemoval where
  progressId : String
  capturedLen : Nat
  delayMs : Nat
deriving Repr, DecidableEq

/-- The component state the tracker logic touches: React state
(`progressItems`, `showCrawlingTab`), the persisted cache (snapshot entries
and the parsed `active_crawls` list), a counter of writes to the
`active_crawls` key, the number of `loadKnowledgeItems` refresh invocations,
emitted toasts `(message, kind)`, and scheduled grace-period removals. -/
structure TrackerState where
  progressItems : List CrawlProgressData := []
  showCrawlingTab : Bool := false
  snapshots : List (String × StoredVal) := []
  activeCrawls : List String := []
  activeCrawlsWrites : Nat := 0
  refreshCount : Nat := 0
  toasts : List (String × String) := []
  pendingRemovals : List PendingRemoval := []
deriving Repr, DecidableEq

/-- Read a `crawl_progress_<k>` entry from the persisted cache. -/
def getKey (m : List (String × StoredVal)) (k : String) : Option StoredVal :=
  (m.find? (fun p => p.1 == k)).map (fun p => p.2)

/-- `localStorage.removeItem` on a `crawl_progress_<k>` key. -/
def removeKey (m : List (String × StoredVal)) (k : String) : List (String × StoredVal) :=
  m.filter (fun p => p.1 != k)

/-- JavaScript `Map.set` semantics: overwriting an existing key keeps its
position, a fresh key is appended. -/
def mapInsert (m : List (String × CrawlProgressData)) (k : String) (v : CrawlProgressData) :
    List (String × CrawlProgressData) :=
  if m.any (fun p => p.1 == k) then m.map (fun p => if p.1 == k then (k, v) else p)
  else m ++ [(k, v)]

/-- One step of building the `Map` in the `setProgressItems` wrapper. -/
def insStep (m : List (String × CrawlProgressData)) (item : CrawlProgressData) :
    List (String × CrawlProgressData) :=
  mapInsert m item.progressId item

/-- `Array.from(new Map(newItems.map(item => [item.progressId, item])).values())`:
keep one entry per `progressId` (the last value, at the first position). -/
def dedupeByProgressId (items : List CrawlProgressData) : List CrawlProgressData :=
  (items.foldl insStep []).map Prod.snd

/-- The argument of the `setProgressItems` wrapper: either a replacement array
or a functional updater, as accepted by the React setter. -/
inductive Updater where
  | arr : List CrawlProgressData → Updater
  | fn : (List CrawlProgressData → List CrawlProgressData) → Updater

/-- `typeof updater === 'function' ? updater(prev) : updater`. -/
def applyUpdater : Updater → List CrawlProgressData → List CrawlProgressData
  | .arr items, _ => items
  | .fn f, prev => f prev

/-- The `setProgressItems` wrapper (part_005 lines 49-55): apply the updater,
then collapse duplicate `progressId`s through a JavaScript `Map`. -/
def setProgressItems (u : Updater) (prev : List CrawlProgressData) : List CrawlProgressData :=
  dedupeByProgressId (applyUpdater u prev)

/-- JavaScript `v || dflt` on an optional number: `undefined` and `0` are
falsy. -/
def jsOr (v : Option Nat) (dflt : Nat) : Nat :=
  match v with
  | none => dflt
  | some 0 => dflt
  | some n => n

/-- JavaScript string interpolation of a possibly-undefined field. -/
def jsStr (v : Option String) : String :=
  v.getD "undefined"

/-- The statuses the startup reconciliation treats as completed:
`['completed', 'error', 'failed', 'cancelled'].includes(parsed.status)`. -/
def terminalStatuses : List String := ["completed", "error", "failed", "cancelled"]

/-- Classification of one persisted active id during startup reconciliation. -/
inductive Classified where
  | stale : Classified
  | restore : CrawlProgressData → Classified
deriving Repr, DecidableEq

/-- Classify one id of the persisted `active_crawls` list (part_005 lines
226-255): a missing or unparsable snapshot is stale; a parsed snapshot whose
status is in `terminalStatuses` or whose age `now - startedAt` exceeds five
minutes (300000 ms) is stale; anything else is queued for verification as
`{...parsed, progressId: crawlId, _needsVerification: true}`. -/
def classifyCrawl (now : Nat) (snaps : List (String × StoredVal)) (crawlId : String) :
    Classified :=
  match getKey snaps crawlId with
  | none => .stale
  | some .junk => .stale
  | some (.snap parsed) =>
      if terminalStatuses.contains parsed.item.status
          || decide (300000 < now - jsOr parsed.startedAt now) then .stale
      else .restore { parsed.item with progressId := crawlId, needsVerification := true }

/-- The `staleItems` accumulator of the reconciliation loop, in list order. -/
def staleOf (now : Nat) (snaps : List (String × StoredVal)) (ids : List String) :
    List String :=
  ids.filter (fun id => match classifyCrawl now snaps id with
    | .stale => true
    | .restore _ => false)

/-- The `restoredItems` accumulator of the reconciliation loop, in list order. -/
def restoredOf (now : Nat) (snaps : List (String × StoredVal)) (ids : List String) :
    List CrawlProgressData :=
  ids.filterMap (fun id => match classifyCrawl now snaps id with
    | .stale => none
    | .restore it => some it)

/-- `response.ok`: HTTP status in the 200-299 range. -/
def isOkCode (c : Nat) : Bool := 200 ≤ c && c < 300

/-- Outcome of `fetch('/api/progress/<id>')`: `none` models a thrown network
error, `some c` a response with HTTP status `c`.  `fetchOk` is the
`response.ok` branch of the verification loop. -/
def fetchOk : Option Nat → Bool
  | some c => isOkCode c
  | none => false

/-- The removal branch of the verification loop: a thrown fetch, or a non-ok
response whose status is 404. -/
def fetchGone : Option Nat → Bool
  | some c => !isOkCode c && c == 404
  | none => true

/-- The `verifiedItems` accumulator of `verifyAndRestoreProgressItems`. -/
def verifiedOf (fr : String → Option Nat) (items : List CrawlProgressData) :
    List CrawlProgressData :=
  items.filter (fun it => fetchOk (fr it.progressId))

/-- The `itemsToRemove` accumulator of `verifyAndRestoreProgressItems`. -/
def removalsOf (fr : String → Option Nat) (items : List CrawlProgressData) :
    List String :=
  (items.filter (fun it => fetchGone (fr it.progressId))).map (fun it => it.progressId)

/-- `verifyAndRestoreProgressItems` (part_005 lines 278-327): probe each queued
item's `/api/progress/<id>`; ok responses go to `verifiedItems`, 404s and
network failures to `itemsToRemove`; then one cleanup pass rewrites
`active_crawls` once and deletes the removed snapshots; finally the verified
items (unchanged) replace the tracked set, or the crawling tab is hidden. -/
def verifyAndRestoreProgressItems (fr : String → Option Nat)
    (itemsToVerify : List CrawlProgressData) (s : TrackerState) : TrackerState :=
  let verifiedItems := verifiedOf fr itemsToVerify
  let itemsToRemove := removalsOf fr itemsToVerify
  let s1 :=
    if itemsToRemove.isEmpty then s
    else { s with
      activeCrawls := s.activeCrawls.filter (fun id => !(itemsToRemove.contains id)),
      activeCrawlsWrites := s.activeCrawlsWrites + 1,
      snapshots := itemsToRemove.foldl removeKey s.snapshots }
  if verifiedItems.isEmpty then { s1 with showCrawlingTab := false }
  else { s1 with progressItems := setProgressItems (.arr verifiedItems) s1.progressItems }

/-- The startup-reconciliation effect (part_005 lines 124-275, verify-before-
restore variant): no-op on an empty persisted list; otherwise classify every
id, remove all stale ids with a single `active_crawls` write plus one
`removeItem` per snapshot, and hand the remaining items to
`verifyAndRestoreProgressItems`. -/
def reconcileOnStartup (now : Nat) (fr : String → Option Nat) (s : TrackerState) :
    TrackerState :=
  if s.activeCrawls.isEmpty then s
  else
    let staleItems := staleOf now s.snapshots s.activeCrawls
    let restoredItems := restoredOf now s.snapshots s.activeCrawls
    let s1 :=
      if staleItems.isEmpty then s
      else { s with
        activeCrawls := s.activeCrawls.filter (fun id => !(staleItems.contains id)),
        activeCrawlsWrites := s.activeCrawlsWrites + 1,
        snapshots := staleItems.foldl removeKey s.snapshots }
    if restoredItems.isEmpty then s1
    else verifyAndRestoreProgressItems fr restoredItems { s1 with showCrawlingTab := true }

/-- The success toast of `handleProgressComplete`. -/
def completionToast (data : CrawlProgressData) : String × String :=
  if data.uploadType == some "document" then
    ("Document \"" ++ jsStr data.fileName ++ "\" uploaded successfully!", "success")
  else
    ("Crawling completed for " ++ jsStr data.currentUrl ++ "!", "success")

/-- `handleProgressComplete` (part_005 lines 623-648): remove the persisted
snapshot, rewrite `active_crawls` without the id, toast, drop the item from
the tracked set (hiding the crawling tab when it was the last one), and call
`loadKnowledgeItems` — unconditionally, once per invocation. -/
def handleProgressComplete (data : CrawlProgressData) (s : TrackerState) : TrackerState :=
  let s1 := { s with
    snapshots := removeKey s.snapshots data.progressId,
    activeCrawls := s.activeCrawls.filter (fun id => id != data.progressId),
    activeCrawlsWrites := s.activeCrawlsWrites + 1 }
  let s2 := { s1 with toasts := s1.toasts ++ [completionToast data] }
  let filtered := s2.progressItems.filter (fun item => item.progressId != data.progressId)
  let s3 := { s2 with
    progressItems := dedupeByProgressId filtered,
    showCrawlingTab := if filtered.isEmpty then false else s2.showCrawlingTab }
  { s3 with refreshCount := s3.refreshCount + 1 }

/-- `handleProgressError` (part_005 lines 650-671): with a `progressId`, mark
the item failed with the error, delete its snapshot, rewrite `active_crawls`
once, and schedule a 5000 ms removal whose closure captured the current
`progressItems.length`; with no id, only toast. -/
def handleProgressError (error : String) (progressId : Option String) (s : TrackerState) :
    TrackerState :=
  match progressId with
  | some pid =>
      let s1 := { s with
        progressItems := setProgressItems (.fn (fun (prev : List CrawlProgressData) => prev.map (fun (item : CrawlProgressData) =>
          if item.progressId == pid then { item with status := "failed", error := some error }
          else item))) s.progressItems }
      let s2 := { s1 with
        snapshots := removeKey s1.snapshots pid,
        activeCrawls := s1.activeCrawls.filter (fun id => id != pid),
        activeCrawlsWrites := s1.activeCrawlsWrites + 1 }
      let s3 := { s2 with
        pendingRemovals := s2.pendingRemovals ++
          [({ progressId := pid, capturedLen := s.progressItems.length,
              delayMs := 5000 } : PendingRemoval)] }
      { s3 with toasts := s3.toasts ++ [("Crawling failed: " ++ error, "error")] }
  | none =>
      { s with toasts := s.toasts ++ [("Crawling failed: " ++ error, "error")] }

/-- Firing the grace-period `setTimeout` body scheduled by
`handleProgressError`: filter the id out of the tracked set and hide the
crawling tab when the captured length was 1. -/
def fireRemoval (p : PendingRemoval) (s : TrackerState) : TrackerState :=
  { s with
    progressItems := setProgressItems
      (.fn (fun (prev : List CrawlProgressData) => prev.filter (fun (item : CrawlProgressData) => item.progressId != p.progressId)))
      s.progressItems,
    showCrawlingTab := if p.capturedLen == 1 then false else s.showCrawlingTab }

/-- `handleStopProgress` (part_005 lines 712-729): when `stopCrawl` resolves,
mark the item cancelled and rewrite `active_crawls` without the id — the
snapshot is left in place and no removal is scheduled; when `stopCrawl`
throws, only a toast is shown. -/
def handleStopProgress (progressId : String) (stopOk : Bool) (s : TrackerState) :
    TrackerState :=
  if stopOk then
    let s1 := { s with
      progressItems := setProgressItems (.fn (fun (prev : List CrawlProgressData) => prev.map (fun (item : CrawlProgressData) =>
        if item.progressId == progressId then { item with status := "cancelled" }
        else item))) s.progressItems }
    { s1 with
      activeCrawls := s1.activeCrawls.filter (fun id => id != progressId),
      activeCrawlsWrites := s1.activeCrawlsWrites + 1 }
  else
    { s with toasts := s.toasts ++ [("Failed to stop crawl", "error")] }

/-- Modelled from the spec: the stream handlers call `handleProgressUpdate`
(the spec's `observeUpdate`) for non-terminal updates, but its definition is
absent from the source files — only its call sites exist.  Per the spec it
merges the patch into the existing item keyed by `progressId`, stamps
`lastUpdated` with the update's implied timestamp, and drops the update when
that timestamp is older than the stored `lastUpdated`. -/
def handleProgressUpdate (ts : Nat) (data : CrawlProgressData) (s : TrackerState) :
    TrackerState :=
  { s with
    progressItems := setProgressItems (.fn (fun (prev : List CrawlProgressData) => prev.map (fun (item : CrawlProgressData) =>
      if item.progressId == data.progressId then
        (if ts < item.lastUpdated then item else { data with lastUpdated := ts })
      else item))) s.progressItems }

/-! ### Concrete states used by witnesses and counterexamples -/

/-- A running tracked job used in concrete scenarios. -/
def IT1 : CrawlProgressData := { progressId := "job-1", status := "running" }

/-- A state tracking `IT1` with its snapshot and active-id entry persisted. -/
def S1 : TrackerState :=
  { progressItems := [IT1],
    showCrawlingTab := true,
    snapshots := [("job-1", .snap { item := IT1, startedAt := some 1000 })],
    activeCrawls := ["job-1"] }

/-- The completion payload delivered for `IT1`. -/
def D1 : CrawlProgressData := { IT1 with status := "completed" }

/-- Terminal-status snapshot for id `A` in the reconciliation scenario. -/
def SA2 : Snapshot := { item := { progressId := "A", status := "completed" }, startedAt := some 400000 }

/-- Stale-by-age snapshot for id `B` (age 350000 ms at `now = 400000`). -/
def SB2 : Snapshot := { item := { progressId := "B", status := "running" }, startedAt := some 50000 }

/-- Fresh, non-terminal snapshot for id `C`. -/
def SC2 : Snapshot := { item := { progressId := "C", status := "running" }, startedAt := some 399000 }

/-- Persisted state `[A, B, C]` for the reconciliation scenario. -/
def S2 : TrackerState :=
  { snapshots := [("A", .snap SA2), ("B", .snap SB2), ("C", .snap SC2)],
    activeCrawls := ["A", "B", "C"] }

/-- Fetch stub for the reconciliation scenario: `C` verifies, all else 404. -/
def F2 : String → Option Nat := fun id => if id == "C" then some 200 else some 404

/-- A running item queued for startup verification. -/
def IT3 : CrawlProgressData := { progressId := "c3", status := "running" }

/-- State holding the persisted entries of `IT3` during verification. -/
def S3 : TrackerState :=
  { snapshots := [("c3", .snap { item := IT3, startedAt := some 1000 })],
    activeCrawls := ["c3"] }

/-- Fetch stub that answers 200 for every id. -/
def F3 : String → Option Nat := fun _ => some 200

/-- Fetch stub that answers 404 for every id. -/
def F404 : String → Option Nat := fun _ => some 404

/-- Fetch stub that answers 500 for every id. -/
def F500 : String → Option Nat := fun _ => some 500

/-- An updater producing two distinct ids, used for the dedup witness. -/
def U4 : Updater := .arr [{ progressId := "a", status := "running" },
  { progressId := "b", status := "running" }]

/-- An insert whose id `a` already occurs in the output of `U4`. -/
def X4 : CrawlProgressData := { progressId := "a", status := "completed" }

/-- A tracked item with `lastUpdated = 10` for the stale-guard witness. -/
def IT5 : CrawlProgressData := { progressId := "job-5", status := "running", lastUpdated := 10 }

/-- State tracking only `IT5`. -/
def S5 : TrackerState := { progressItems := [IT5] }

/-- An update patch for `job-5` whose implied timestamp will be 5 (< 10). -/
def D5 : CrawlProgressData := { progressId := "job-5", status := "completed" }

/-! ### Lemmas about the persisted snapshot store -/

theorem getKey_cons (p : String × StoredVal) (m : List (String × StoredVal)) (k : String) :
    getKey (p :: m) k = if p.1 = k then some p.2 else getKey m k := by
  by_cases h : p.1 = k <;> simp [getKey, List.find?_cons, h]

theorem getKey_removeKey (m : List (String × StoredVal)) (k k' : String) :
    getKey (removeKey m k) k' = if k' = k then none else getKey m k' := by
  induction m with
  | nil => simp [getKey, removeKey]
  | cons p m ih =>
    rw [getKey_cons]
    by_cases hpk : p.1 = k
    · have : removeKey (p :: m) k = removeKey m k := by
        simp [removeKey, List.filter_cons, hpk]
      rw [this, ih]
      by_cases hk : k' = k
      · simp [hk, hpk]
      · have h1 : k' ≠ p.1 := fun h => hk (h.trans hpk)
        have h2 : ¬ p.1 = k' := fun h => h1 h.symm
        simp [hk, h1, h2]
    · have : removeKey (p :: m) k = p :: removeKey m k := by
        simp [removeKey, List.filter_cons, hpk]
      rw [this, getKey_cons, ih]
      by_cases hpk' : p.1 = k'
      · have hk : k' ≠ k := fun h => hpk (hpk'.trans h)
        simp [hpk', hk]
      · simp [hpk']

theorem getKey_foldl_removeKey (ks : List String) :
    ∀ (m : List (String × StoredVal)) (k : String),
      getKey (ks.foldl removeKey m) k = if k ∈ ks then none else getKey m k := by
  induction ks with
  | nil => intro m k; simp
  | cons a ks ih =>
    intro m k
    rw [List.foldl_cons, ih, getKey_removeKey]
    by_cases hk : k ∈ ks
    · simp [hk]
    · by_cases hka : k = a <;> simp [hk, hka]

/-! ### Lemmas about the Map-based deduplication of `setProgressItems` -/

theorem any_key_eq (m : List (String × CrawlProgressData)) (k : String) :
    m.any (fun p => p.1 == k) = true ↔ k ∈ m.map Prod.fst := by
  rw [List.any_eq_true]
  constructor
  · rintro ⟨p, hp, he⟩
    rw [beq_iff_eq] at he
    rw [← he]
    exact List.mem_map_of_mem _ hp
  · intro h
    rcases List.mem_map.mp h with ⟨p, hp, he⟩
    exact ⟨p, hp, beq_iff_eq.mpr he⟩

theorem keys_mapInsert (m : List (String × CrawlProgressData)) (k : String)
    (v : CrawlProgressData) :
    (mapInsert m k v).map Prod.fst =
      if m.any (fun p => p.1 == k) then m.map Prod.fst else m.map Prod.fst ++ [k] := by
  unfold mapInsert
  split
  · rw [List.map_map]
    apply List.map_congr_left
    intro p _
    by_cases h : p.1 = k <;> simp [h]
  · simp

theorem mem_mapInsert {q : String × CrawlProgressData}
    {m : List (String × CrawlProgressData)} {k : String} {v : CrawlProgressData}
    (h : q ∈ mapInsert m k v) : q ∈ m ∨ q = (k, v) := by
  unfold mapInsert at h
  split at h
  · rcases List.mem_map.mp h with ⟨p, hp, hq⟩
    by_cases hk : p.1 = k
    · right; rw [← hq]; simp [hk]
    · left; rw [← hq]; simpa [hk] using hp
  · rcases List.mem_append.mp h with h1 | h1
    · exact Or.inl h1
    · right; simpa using h1

theorem mem_foldl_insStep (l : List CrawlProgressData) :
    ∀ (acc : List (String × CrawlProgressData)) (q : String × CrawlProgressData),
      q ∈ l.foldl insStep acc → q ∈ acc ∨ q.2 ∈ l := by
  induction l with
  | nil => intro acc q h; simp at h; exact Or.inl h
  | cons x xs ih =>
    intro acc q h
    rw [List.foldl_cons] at h
    rcases ih (insStep acc x) q h with h1 | h1
    · rcases mem_mapInsert h1 with h2 | h2
      · exact Or.inl h2
      · right; rw [h2]; simp
    · right; simp [h1]

theorem mem_dedupe (x : CrawlProgressData) (l : List CrawlProgressData)
    (h : x ∈ dedupeByProgressId l) : x ∈ l := by
  unfold dedupeByProgressId at h
  rcases List.mem_map.mp h with ⟨q, hq, hx⟩
  rcases mem_foldl_insStep l [] q hq with h1 | h1
  · simp at h1
  · rw [← hx]; exact h1

theorem wf_mapInsert (m : List (String × CrawlProgressData)) (k : String)
    (v : CrawlProgressData) (hnd : (m.map Prod.fst).Nodup)
    (hcon : ∀ p ∈ m, p.2.progressId = p.1) (hv : v.progressId = k) :
    ((mapInsert m k v).map Prod.fst).Nodup ∧ ∀ p ∈ mapInsert m k v, p.2.progressId = p.1 := by
  constructor
  · rw [keys_mapInsert]
    split
    · exact hnd
    · next h =>
      have hk : k ∉ m.map Prod.fst := by
        intro hmem
        rw [← any_key_eq] at hmem
        simp [hmem] at h
      simp [List.nodup_append, hk, hnd]
  · intro p hp
    rcases mem_mapInsert hp with h1 | h1
    · exact hcon p h1
    · rw [h1]; exact hv

theorem wf_foldl_insStep (l : List CrawlProgressData) :
    ∀ acc, ((acc.map Prod.fst).Nodup ∧ ∀ p ∈ acc, p.2.progressId = p.1) →
      (((l.foldl insStep acc).map Prod.fst).Nodup ∧
        ∀ p ∈ l.foldl insStep acc, p.2.progressId = p.1) := by
  induction l with
  | nil => intro acc h; simpa using h
  | cons x xs ih =>
    intro acc h
    rw [List.foldl_cons]
    exact ih _ (wf_mapInsert acc x.progressId x h.1 h.2 rfl)

theorem dedupe_ids_nodup (l : List CrawlProgressData) :
    ((dedupeByProgressId l).map (fun it => it.progressId)).Nodup := by
  have h := wf_foldl_insStep l [] (by simp)
  unfold dedupeByProgressId
  rw [List.map_map]
  have heq : (l.foldl insStep []).map ((fun it => it.progressId) ∘ Prod.snd) =
      (l.foldl insStep []).map Prod.fst := by
    apply List.map_congr_left
    intro p hp
    simpa using h.2 p hp
  rw [heq]
  exact h.1

theorem foldl_insStep_fresh (l : List CrawlProgressData) :
    ∀ acc, (∀ it ∈ l, acc.any (fun p => p.1 == it.progressId) = false) →
      (l.map (fun it => it.progressId)).Nodup →
      l.foldl insStep acc = acc ++ l.map (fun it => (it.progressId, it)) := by
  induction l with
  | nil => intro acc _ _; simp
  | cons x xs ih =>
    intro acc hfresh hnd
    rw [List.map_cons, List.nodup_cons] at hnd
    have hnd' := hnd
    rw [List.foldl_cons]
    have hx : acc.any (fun p => p.1 == x.progressId) = false := hfresh x (by simp)
    have hstep : insStep acc x = acc ++ [(x.progressId, x)] := by
      simp [insStep, mapInsert, hx]
    rw [hstep, ih (acc ++ [(x.progressId, x)]) ?fresh ?nd]
    · simp
    case fresh =>
      intro it hit
      rw [List.any_append]
      have h1 : acc.any (fun p => p.1 == it.progressId) = false := hfresh it (by simp [hit])
      have h2 : ¬ x.progressId = it.progressId := by
        intro heq
        have hmem : it.progressId ∈ xs.map (fun it => it.progressId) :=
          List.mem_map_of_mem _ hit
        rw [← heq] at hmem
        exact hnd'.1 hmem
      simp [h1, h2]
    case nd => exact hnd'.2

theorem dedupe_eq_self (l : List CrawlProgressData)
    (hnd : (l.map (fun it => it.progressId)).Nodup) : dedupeByProgressId l = l := by
  unfold dedupeByProgressId
  rw [foldl_insStep_fresh l [] (by simp) hnd, List.nil_append, List.map_map]
  have h : ∀ x ∈ l, (Prod.snd ∘ fun (it : CrawlProgressData) => (it.progressId, it)) x = id x :=
    fun x _ => rfl
  rw [List.map_congr_left h, List.map_id]

theorem keys_foldl_insStep_mem (l : List CrawlProgressData) :
    ∀ (acc : List (String × CrawlProgressData)) (k : String),
      (k ∈ (l.foldl insStep acc).map Prod.fst) ↔
        k ∈ acc.map Prod.fst ∨ k ∈ l.map (fun it => it.progressId) := by
  induction l with
  | nil => intro acc k; simp
  | cons x xs ih =>
    intro acc k
    rw [List.foldl_cons, ih]
    simp only [insStep]
    constructor
    · rintro (h | h)
      · rw [keys_mapInsert] at h
        split at h
        · exact Or.inl h
        · rcases List.mem_append.mp h with h1 | h1
          · exact Or.inl h1
          · right; simp at h1; simp [h1]
      · right; simp [h]
    · rintro (h | h)
      · left
        rw [keys_mapInsert]
        split
        · exact h
        · exact List.mem_append.mpr (Or.inl h)
      · simp only [List.map_cons, List.mem_cons] at h
        rcases h with h | h
        · left
          rw [keys_mapInsert]
          split
          · next hany => rw [h]; exact (any_key_eq acc x.progressId).mp hany
          · subst h; simp
        · right; exact h

theorem length_dedupe_append (l : List CrawlProgressData) (x : CrawlProgressData) :
    (dedupeByProgressId (l ++ [x])).length =
      if x.progressId ∈ l.map (fun it => it.progressId) then (dedupeByProgressId l).length
      else (dedupeByProgressId l).length + 1 := by
  unfold dedupeByProgressId
  rw [List.foldl_append]
  simp only [List.foldl_cons, List.foldl_nil, List.length_map]
  by_cases h : x.progressId ∈ l.map (fun it => it.progressId)
  · have hany : (l.foldl insStep []).any (fun p => p.1 == x.progressId) = true := by
      rw [any_key_eq, keys_foldl_insStep_mem]
      exact Or.inr h
    simp [insStep, mapInsert, hany, h]
  · have hany : ¬ ((l.foldl insStep []).any (fun p => p.1 == x.progressId) = true) := by
      rw [any_key_eq, keys_foldl_insStep_mem]
      simp [h]
    rw [Bool.not_eq_true] at hany
    simp [insStep, mapInsert, hany, h]

/-! ### Claim theorems -/

/-- Claim C9: calling the progress error handler with an error message but no
job id leaves the tracked set, every persisted snapshot, and the persisted
active-id list unchanged; the only effect is an error toast. -/
theorem handleProgressError_no_id_frame (err : String) (s : TrackerState) :
    handleProgressError err none s =
      { s with toasts := s.toasts ++ [("Crawling failed: " ++ err, "error")] } := rfl

/-- Claim C4: every write through the `setProgressItems` wrapper yields a list
whose `progressId`s are pairwise distinct; a single appended item grows the
deduplicated set by at most one, and not at all when its id already occurs. -/
theorem setProgressItems_no_duplicates (u : Updater) (prev : List CrawlProgressData)
    (x : CrawlProgressData) :
    ((setProgressItems u prev).map (fun it => it.progressId)).Nodup
    ∧ (setProgressItems (.arr (applyUpdater u prev ++ [x])) prev).length ≤
        (setProgressItems u prev).length + 1
    ∧ (x.progressId ∈ (applyUpdater u prev).map (fun it => it.progressId) →
        (setProgressItems (.arr (applyUpdater u prev ++ [x])) prev).length =
          (setProgressItems u prev).length) := by
  refine ⟨dedupe_ids_nodup _, ?_, ?_⟩
  · show (dedupeByProgressId (applyUpdater u prev ++ [x])).length ≤
      (dedupeByProgressId (applyUpdater u prev)).length + 1
    rw [length_dedupe_append]
    split <;> omega
  · intro hmem
    show (dedupeByProgressId (applyUpdater u prev ++ [x])).length =
      (dedupeByProgressId (applyUpdater u prev)).length
    rw [length_dedupe_append]
    simp [hmem]

/-- Witness for C4 at a concrete updater: the output ids are distinct and
inserting an existing id does not grow the set. -/
theorem setProgressItems_no_duplicates_witness :
    ((setProgressItems U4 []).map (fun it => it.progressId)).Nodup
    ∧ (setProgressItems (.arr (applyUpdater U4 [] ++ [X4])) []).length =
        (setProgressItems U4 []).length :=
  ⟨(setProgressItems_no_duplicates U4 [] X4).1,
   (setProgressItems_no_duplicates U4 [] X4).2.2 (by decide)⟩

/-- Claim C1 (counterexample): invoking `handleProgressComplete` twice in a
row on a tracked job does not trigger the `loadKnowledgeItems` refresh
exactly once — each invocation triggers it, so it runs twice. -/
theorem handleProgressComplete_twice_not_single_refresh :
    ¬ ((handleProgressComplete D1 (handleProgressComplete D1 S1)).refreshCount =
        S1.refreshCount + 1) := by decide

/-- Claim C1 (amended): each `handleProgressComplete` invocation triggers one
`loadKnowledgeItems` refresh, so two invocations trigger two; afterwards the
tracked set has no item with the job id and the persisted cache has neither a
snapshot nor an active-id entry for it. -/
theorem handleProgressComplete_twice_cleanup (data : CrawlProgressData) (s : TrackerState) :
    (handleProgressComplete data (handleProgressComplete data s)).refreshCount =
        s.refreshCount + 2
    ∧ (∀ x ∈ (handleProgressComplete data (handleProgressComplete data s)).progressItems,
        x.progressId ≠ data.progressId)
    ∧ getKey (handleProgressComplete data (handleProgressComplete data s)).snapshots
        data.progressId = none
    ∧ data.progressId ∉
        (handleProgressComplete data (handleProgressComplete data s)).activeCrawls := by
  refine ⟨rfl, ?_, ?_, ?_⟩
  · intro x hx
    have hpi : (handleProgressComplete data (handleProgressComplete data s)).progressItems =
        dedupeByProgressId ((handleProgressComplete data s).progressItems.filter
          (fun item => item.progressId != data.progressId)) := rfl
    rw [hpi] at hx
    have hx2 := mem_dedupe _ _ hx
    have h3 := (List.mem_filter.mp hx2).2
    simpa using h3
  · have hsn : (handleProgressComplete data (handleProgressComplete data s)).snapshots =
        removeKey (removeKey s.snapshots data.progressId) data.progressId := rfl
    rw [hsn, getKey_removeKey]
    simp
  · have hac : (handleProgressComplete data (handleProgressComplete data s)).activeCrawls =
        ((s.activeCrawls.filter (fun id => id != data.progressId)).filter
          (fun id => id != data.progressId)) := rfl
    rw [hac]
    intro hmem
    have h2 := (List.mem_filter.mp hmem).2
    simp at h2

/-- Witness instantiating the amended C1 statement on a concrete tracked
job. -/
theorem handleProgressComplete_twice_cleanup_witness :
    (handleProgressComplete D1 (handleProgressComplete D1 S1)).refreshCount =
        S1.refreshCount + 2
    ∧ getKey (handleProgressComplete D1 (handleProgressComplete D1 S1)).snapshots
        D1.progressId = none :=
  ⟨(handleProgressComplete_twice_cleanup D1 S1).1,
   (handleProgressComplete_twice_cleanup D1 S1).2.2.1⟩

/-- Claim C5: an update whose implied timestamp is strictly older than the
stored `lastUpdated` of the tracked item with the same id is dropped, leaving
the state unchanged (spec-modelled `handleProgressUpdate`). -/
theorem handleProgressUpdate_stale_guard (ts : Nat) (data : CrawlProgressData)
    (s : TrackerState)
    (hnd : (s.progressItems.map (fun it => it.progressId)).Nodup)
    (hold : ∀ item ∈ s.progressItems, item.progressId = data.progressId →
      ts < item.lastUpdated) :
    handleProgressUpdate ts data s = s := by
  have hmap : ∀ item ∈ s.progressItems,
      (fun (item : CrawlProgressData) =>
        if item.progressId == data.progressId then
          (if ts < item.lastUpdated then item else { data with lastUpdated := ts })
        else item) item = id item := by
    intro item hitem
    by_cases h : item.progressId = data.progressId
    · simp [h, hold item hitem h]
    · simp [h]
  show { s with progressItems := setProgressItems _ s.progressItems } = s
  rw [setProgressItems, applyUpdater, List.map_congr_left hmap, List.map_id,
    dedupe_eq_self _ hnd]

/-- Witness for C5: a patch for `job-5` stamped 5 against a stored
`lastUpdated` of 10 is dropped. -/
theorem handleProgressUpdate_stale_guard_witness :
    handleProgressUpdate 5 D5 S5 = S5 :=
  handleProgressUpdate_stale_guard 5 D5 S5 (by decide) (by decide)

/-! ### Projection lemmas for the verification pass -/

theorem verify_snapshots_eq (fr : String → Option Nat) (items : List CrawlProgressData)
    (s : TrackerState) :
    (verifyAndRestoreProgressItems fr items s).snapshots =
      if (removalsOf fr items).isEmpty then s.snapshots
      else (removalsOf fr items).foldl removeKey s.snapshots := by
  unfold verifyAndRestoreProgressItems
  by_cases h : (removalsOf fr items).isEmpty <;>
    by_cases h2 : (verifiedOf fr items).isEmpty <;> simp [h, h2]

theorem verify_activeCrawls_eq (fr : String → Option Nat) (items : List CrawlProgressData)
    (s : TrackerState) :
    (verifyAndRestoreProgressItems fr items s).activeCrawls =
      if (removalsOf fr items).isEmpty then s.activeCrawls
      else s.activeCrawls.filter (fun id => !((removalsOf fr items).contains id)) := by
  unfold verifyAndRestoreProgressItems
  by_cases h : (removalsOf fr items).isEmpty <;>
    by_cases h2 : (verifiedOf fr items).isEmpty <;> simp [h, h2]

theorem verify_writes_eq (fr : String → Option Nat) (items : List CrawlProgressData)
    (s : TrackerState) :
    (verifyAndRestoreProgressItems fr items s).activeCrawlsWrites =
      if (removalsOf fr items).isEmpty then s.activeCrawlsWrites
      else s.activeCrawlsWrites + 1 := by
  unfold verifyAndRestoreProgressItems
  by_cases h : (removalsOf fr items).isEmpty <;>
    by_cases h2 : (verifiedOf fr items).isEmpty <;> simp [h, h2]

theorem verify_progressItems_eq (fr : String → Option Nat) (items : List CrawlProgressData)
    (s : TrackerState) :
    (verifyAndRestoreProgressItems fr items s).progressItems =
      if (verifiedOf fr items).isEmpty then s.progressItems
      else dedupeByProgressId (verifiedOf fr items) := by
  unfold verifyAndRestoreProgressItems
  by_cases h : (removalsOf fr items).isEmpty <;>
    by_cases h2 : (verifiedOf fr items).isEmpty <;>
      simp [h, h2, setProgressItems, applyUpdater]

/-! ### More claim theorems -/

/-- Claim C3 (amended): during startup verification a 404 response or a
network failure marks the id for removal through the same single-pass
cleanup as the stale ids (snapshot deleted, active-id entry dropped, one
rewrite of the list for the whole phase), while a success response re-admits
the item into the tracked set unchanged — it keeps its persisted status and
is not set to `reconnecting`. -/
theorem verifyAndRestore_outcomes (fr : String → Option Nat)
    (items : List CrawlProgressData) (s : TrackerState) (item : CrawlProgressData)
    (hmem : item ∈ items) :
    (fetchGone (fr item.progressId) = true →
      item.progressId ∉ (verifyAndRestoreProgressItems fr items s).activeCrawls
      ∧ getKey (verifyAndRestoreProgressItems fr items s).snapshots item.progressId = none
      ∧ (verifyAndRestoreProgressItems fr items s).activeCrawlsWrites =
          s.activeCrawlsWrites + 1)
    ∧ (fetchOk (fr item.progressId) = true →
        (items.map (fun it => it.progressId)).Nodup →
        item ∈ (verifyAndRestoreProgressItems fr items s).progressItems) := by
  constructor
  · intro hgone
    have hrem : item.progressId ∈ removalsOf fr items := by
      unfold removalsOf
      exact List.mem_map_of_mem _ (List.mem_filter.mpr ⟨hmem, hgone⟩)
    have hne : (removalsOf fr items).isEmpty = false := by
      rw [List.isEmpty_eq_false]
      exact List.ne_nil_of_mem hrem
    refine ⟨?_, ?_, ?_⟩
    · rw [verify_activeCrawls_eq, if_neg (by simp [hne])]
      intro hmem2
      have h2 := (List.mem_filter.mp hmem2).2
      simp [hrem] at h2
    · rw [verify_snapshots_eq, if_neg (by simp [hne]), getKey_foldl_removeKey]
      simp [hrem]
    · rw [verify_writes_eq, if_neg (by simp [hne])]
  · intro hok hnd
    have hver : item ∈ verifiedOf fr items := by
      unfold verifiedOf
      exact List.mem_filter.mpr ⟨hmem, hok⟩
    have hne : (verifiedOf fr items).isEmpty = false := by
      rw [List.isEmpty_eq_false]
      exact List.ne_nil_of_mem hver
    rw [verify_progressItems_eq, if_neg (by simp [hne])]
    have hsub : List.Sublist ((verifiedOf fr items).map (fun it => it.progressId))
        (items.map (fun it => it.progressId)) :=
      (List.filter_sublist items).map _
    rw [dedupe_eq_self _ (hnd.sublist hsub)]
    exact hver

/-- Witness for C3 (amended): against a 404-only server, the persisted entry
for a queued item is cleaned up in one pass; against a 200-only server, the
item is re-admitted into the tracked set unchanged. -/
theorem verifyAndRestore_outcomes_witness :
    ("c3" ∉ (verifyAndRestoreProgressItems F404 [IT3] S3).activeCrawls
      ∧ getKey (verifyAndRestoreProgressItems F404 [IT3] S3).snapshots "c3" = none
      ∧ (verifyAndRestoreProgressItems F404 [IT3] S3).activeCrawlsWrites =
          S3.activeCrawlsWrites + 1)
    ∧ IT3 ∈ (verifyAndRestoreProgressItems F3 [IT3] S3).progressItems :=
  ⟨(verifyAndRestore_outcomes F404 [IT3] S3 IT3 (by decide)).1 (by decide),
   (verifyAndRestore_outcomes F3 [IT3] S3 IT3 (by decide)).2 (by decide) (by decide)⟩

/-- Claim C3 (counterexample): a success response during startup verification
re-admits the item with its persisted status (here `running`), not with
status `reconnecting` as claimed. -/
theorem verifyAndRestore_success_keeps_status :
    (verifyAndRestoreProgressItems F3 [IT3] S3).progressItems = [IT3]
    ∧ IT3.status ≠ "reconnecting" := by decide

/-- Claim C10: a verification response that is neither ok nor 404 (for
example 500) leaves the item out of the restored tracked set while its
persisted snapshot and active-id entry stay in place — cleanup is deferred. -/
theorem verify_other_status_deferred (fr : String → Option Nat)
    (items : List CrawlProgressData) (s : TrackerState) (item : CrawlProgressData)
    (code : Nat) (h0 : s.progressItems = []) (_hmem : item ∈ items)
    (hfr : fr item.progressId = some code)
    (hnok : isOkCode code = false) (hn404 : code ≠ 404) :
    (∀ x ∈ (verifyAndRestoreProgressItems fr items s).progressItems,
        x.progressId ≠ item.progressId)
    ∧ getKey (verifyAndRestoreProgressItems fr items s).snapshots item.progressId =
        getKey s.snapshots item.progressId
    ∧ (item.progressId ∈ (verifyAndRestoreProgressItems fr items s).activeCrawls ↔
        item.progressId ∈ s.activeCrawls) := by
  have hgone : fetchGone (fr item.progressId) = false := by
    rw [hfr]
    simp [fetchGone, hnok, hn404]
  have hnotrem : item.progressId ∉ removalsOf fr items := by
    intro hm
    unfold removalsOf at hm
    rcases List.mem_map.mp hm with ⟨y, hy, hid⟩
    have hyg := (List.mem_filter.mp hy).2
    rw [hid, hfr] at hyg
    simp [fetchGone, hnok, hn404] at hyg
  refine ⟨?_, ?_, ?_⟩
  · intro x hx
    rw [verify_progressItems_eq] at hx
    split at hx
    · rw [h0] at hx
      simp at hx
    · have hx2 := mem_dedupe _ _ hx
      have hxo := (List.mem_filter.mp hx2).2
      intro heq
      rw [heq, hfr] at hxo
      simp [fetchOk, hnok] at hxo
  · rw [verify_snapshots_eq]
    split
    · rfl
    · rw [getKey_foldl_removeKey, if_neg hnotrem]
  · rw [verify_activeCrawls_eq]
    split
    · exact Iff.rfl
    · constructor
      · intro h
        exact (List.mem_filter.mp h).1
      · intro h
        refine List.mem_filter.mpr ⟨h, ?_⟩
        simp [hnotrem]

/-- Witness for C10: a 500-answering server defers cleanup of `c3`: the item
is not restored but its persisted entries survive. -/
theorem verify_other_status_deferred_witness :
    (∀ x ∈ (verifyAndRestoreProgressItems F500 [IT3] S3).progressItems,
        x.progressId ≠ "c3")
    ∧ getKey (verifyAndRestoreProgressItems F500 [IT3] S3).snapshots "c3" =
        getKey S3.snapshots "c3"
    ∧ ("c3" ∈ (verifyAndRestoreProgressItems F500 [IT3] S3).activeCrawls ↔
        "c3" ∈ S3.activeCrawls) :=
  verify_other_status_deferred F500 [IT3] S3 IT3 500 (by decide) (by decide)
    (by decide) (by decide) (by decide)

/-- Ids are preserved by the failed-status update of `handleProgressError`. -/
theorem ids_map_error_update (l : List CrawlProgressData) (err pid : String) :
    (l.map (fun (item : CrawlProgressData) =>
      if item.progressId == pid then { item with status := "failed", error := some err }
      else item)).map (fun it => it.progressId) = l.map (fun it => it.progressId) := by
  rw [List.map_map]
  apply List.map_congr_left
  intro x _
  by_cases h : x.progressId = pid <;> simp [h]

/-- Ids are preserved by the cancelled-status update of `handleStopProgress`. -/
theorem ids_map_cancel_update (l : List CrawlProgressData) (pid : String) :
    (l.map (fun (item : CrawlProgressData) =>
      if item.progressId == pid then { item with status := "cancelled" }
      else item)).map (fun it => it.progressId) = l.map (fun it => it.progressId) := by
  rw [List.map_map]
  apply List.map_congr_left
  intro x _
  by_cases h : x.progressId = pid <;> simp [h]

/-- Claim C6: after `handleProgressError` on a tracked id the item is
immediately present with status `failed` and the given error, its snapshot
and active-id entry are removed at once, a 5000 ms removal is scheduled, and
firing that removal leaves the tracked set without the item while the
persisted cache, write counter, refresh counter, and toasts stay untouched. -/
theorem handleProgressError_grace_removal (err pid : String) (s : TrackerState)
    (item : CrawlProgressData) (hmem : item ∈ s.progressItems)
    (hpid : item.progressId = pid)
    (hnd : (s.progressItems.map (fun it => it.progressId)).Nodup) :
    ({ item with status := "failed", error := some err } ∈
        (handleProgressError err (some pid) s).progressItems)
    ∧ getKey (handleProgressError err (some pid) s).snapshots pid = none
    ∧ pid ∉ (handleProgressError err (some pid) s).activeCrawls
    ∧ (handleProgressError err (some pid) s).pendingRemovals =
        s.pendingRemovals ++ [⟨pid, s.progressItems.length, 5000⟩]
    ∧ (∀ x ∈ (fireRemoval ⟨pid, s.progressItems.length, 5000⟩
          (handleProgressError err (some pid) s)).progressItems, x.progressId ≠ pid)
    ∧ (fireRemoval ⟨pid, s.progressItems.length, 5000⟩
        (handleProgressError err (some pid) s)).snapshots =
        (handleProgressError err (some pid) s).snapshots
    ∧ (fireRemoval ⟨pid, s.progressItems.length, 5000⟩
        (handleProgressError err (some pid) s)).activeCrawls =
        (handleProgressError err (some pid) s).activeCrawls
    ∧ (fireRemoval ⟨pid, s.progressItems.length, 5000⟩
        (handleProgressError err (some pid) s)).activeCrawlsWrites =
        (handleProgressError err (some pid) s).activeCrawlsWrites
    ∧ (fireRemoval ⟨pid, s.progressItems.length, 5000⟩
        (handleProgressError err (some pid) s)).refreshCount =
        (handleProgressError err (some pid) s).refreshCount
    ∧ (fireRemoval ⟨pid, s.progressItems.length, 5000⟩
        (handleProgressError err (some pid) s)).toasts =
        (handleProgressError err (some pid) s).toasts := by
  have hpi : (handleProgressError err (some pid) s).progressItems =
      dedupeByProgressId (s.progressItems.map (fun (item : CrawlProgressData) =>
        if item.progressId == pid then { item with status := "failed", error := some err }
        else item)) := rfl
  have hself : (handleProgressError err (some pid) s).progressItems =
      s.progressItems.map (fun (item : CrawlProgressData) =>
        if item.progressId == pid then { item with status := "failed", error := some err }
        else item) := by
    rw [hpi, dedupe_eq_self]
    rw [ids_map_error_update]
    exact hnd
  refine ⟨?_, ?_, ?_, rfl, ?_, rfl, rfl, rfl, rfl, rfl⟩
  · rw [hself]
    have := List.mem_map_of_mem (fun (item : CrawlProgressData) =>
      if item.progressId == pid then { item with status := "failed", error := some err }
      else item) hmem
    simpa [hpid] using this
  · have hsn : (handleProgressError err (some pid) s).snapshots =
        removeKey s.snapshots pid := rfl
    rw [hsn, getKey_removeKey]
    simp
  · have hac : (handleProgressError err (some pid) s).activeCrawls =
        s.activeCrawls.filter (fun id => id != pid) := rfl
    rw [hac]
    intro hin
    have h2 := (List.mem_filter.mp hin).2
    simp at h2
  · intro x hx
    have hfi : (fireRemoval ⟨pid, s.progressItems.length, 5000⟩
        (handleProgressError err (some pid) s)).progressItems =
        dedupeByProgressId ((handleProgressError err (some pid) s).progressItems.filter
          (fun (it : CrawlProgressData) => it.progressId != pid)) := rfl
    rw [hfi] at hx
    have hx2 := mem_dedupe _ _ hx
    have h3 := (List.mem_filter.mp hx2).2
    simpa using h3

/-- Witness for C6 on the concrete tracked job `job-1`. -/
theorem handleProgressError_grace_removal_witness :
    ({ IT1 with status := "failed", error := some "boom" } ∈
        (handleProgressError "boom" (some "job-1") S1).progressItems)
    ∧ getKey (handleProgressError "boom" (some "job-1") S1).snapshots "job-1" = none
    ∧ (∀ x ∈ (fireRemoval ⟨"job-1", S1.progressItems.length, 5000⟩
        (handleProgressError "boom" (some "job-1") S1)).progressItems,
        x.progressId ≠ "job-1") :=
  ⟨(handleProgressError_grace_removal "boom" "job-1" S1 IT1 (by decide) (by decide)
      (by decide)).1,
   (handleProgressError_grace_removal "boom" "job-1" S1 IT1 (by decide) (by decide)
      (by decide)).2.1,
   (handleProgressError_grace_removal "boom" "job-1" S1 IT1 (by decide) (by decide)
      (by decide)).2.2.2.2.1⟩

/-- Claim C8 (counterexample): after `handleStopProgress` the cancelled item
keeps its persisted snapshot and no grace-period removal is scheduled, so the
claimed auto-removal-with-cleanup does not happen. -/
theorem handleStopProgress_no_snapshot_cleanup :
    ¬ (getKey (handleStopProgress "job-1" true S1).snapshots "job-1" = none)
    ∧ (handleStopProgress "job-1" true S1).pendingRemovals = []
    ∧ { IT1 with status := "cancelled" } ∈
        (handleStopProgress "job-1" true S1).progressItems := by decide

/-- Claim C8 (amended): `handleStopProgress` calls the cancellation API and
then optimistically marks the item `cancelled` and rewrites the active-id
list without the id; it leaves the snapshot in the persisted cache, schedules
no grace-period removal, and triggers no refresh — the item stays tracked
until a later streamed update or dismissal removes it. -/
theorem handleStopProgress_effects (s : TrackerState) (pid : String)
    (item : CrawlProgressData) (hmem : item ∈ s.progressItems)
    (hpid : item.progressId = pid)
    (hnd : (s.progressItems.map (fun it => it.progressId)).Nodup) :
    ({ item with status := "cancelled" } ∈ (handleStopProgress pid true s).progressItems)
    ∧ pid ∉ (handleStopProgress pid true s).activeCrawls
    ∧ (handleStopProgress pid true s).snapshots = s.snapshots
    ∧ (handleStopProgress pid true s).pendingRemovals = s.pendingRemovals
    ∧ (handleStopProgress pid true s).refreshCount = s.refreshCount
    ∧ (handleStopProgress pid true s).activeCrawlsWrites = s.activeCrawlsWrites + 1 := by
  have hstep : handleStopProgress pid true s =
      { s with
        progressItems := dedupeByProgressId (s.progressItems.map
          (fun (item : CrawlProgressData) =>
            if item.progressId == pid then { item with status := "cancelled" } else item)),
        activeCrawls := s.activeCrawls.filter (fun id => id != pid),
        activeCrawlsWrites := s.activeCrawlsWrites + 1 } := by
    simp [handleStopProgress, setProgressItems, applyUpdater]
  rw [hstep]
  refine ⟨?_, ?_, rfl, rfl, rfl, rfl⟩
  · show { item with status := "cancelled" } ∈ dedupeByProgressId _
    rw [dedupe_eq_self]
    · have := List.mem_map_of_mem (fun (item : CrawlProgressData) =>
        if item.progressId == pid then { item with status := "cancelled" } else item) hmem
      simpa [hpid] using this
    · rw [ids_map_cancel_update]
      exact hnd
  · intro hin
    have h2 := (List.mem_filter.mp hin).2
    simp at h2

/-- Witness for the amended C8 on the concrete tracked job `job-1`. -/
theorem handleStopProgress_effects_witness :
    ({ IT1 with status := "cancelled" } ∈
        (handleStopProgress "job-1" true S1).progressItems)
    ∧ (handleStopProgress "job-1" true S1).snapshots = S1.snapshots
    ∧ (handleStopProgress "job-1" true S1).pendingRemovals = S1.pendingRemovals :=
  ⟨(handleStopProgress_effects S1 "job-1" IT1 (by decide) (by decide) (by decide)).1,
   (handleStopProgress_effects S1 "job-1" IT1 (by decide) (by decide) (by decide)).2.2.1,
   (handleStopProgress_effects S1 "job-1" IT1 (by decide) (by decide) (by decide)).2.2.2.1⟩

/-- The verification pass only ever narrows the persisted active-id list. -/
theorem verify_activeCrawls_mono (fr : String → Option Nat)
    (items : List CrawlProgressData) (s : TrackerState) (x : String)
    (h : x ∈ (verifyAndRestoreProgressItems fr items s).activeCrawls) :
    x ∈ s.activeCrawls := by
  rw [verify_activeCrawls_eq] at h
  split at h
  · exact h
  · exact (List.mem_filter.mp h).1

/-- The verification pass never recreates a deleted snapshot. -/
theorem verify_snapshots_none (fr : String → Option Nat)
    (items : List CrawlProgressData) (s : TrackerState) (k : String)
    (h : getKey s.snapshots k = none) :
    getKey (verifyAndRestoreProgressItems fr items s).snapshots k = none := by
  rw [verify_snapshots_eq]
  split
  · exact h
  · rw [getKey_foldl_removeKey]
    split
    · rfl
    · exact h

/-- A stale-classified id is removed from the persisted list and its snapshot
deleted by startup reconciliation, whatever the verification phase does. -/
theorem reconcile_removes_stale (now : Nat) (fr : String → Option Nat)
    (s : TrackerState) (id : String) (hid : id ∈ s.activeCrawls)
    (hcl : classifyCrawl now s.snapshots id = .stale) :
    id ∉ (reconcileOnStartup now fr s).activeCrawls
    ∧ getKey (reconcileOnStartup now fr s).snapshots id = none := by
  have hne : s.activeCrawls.isEmpty = false := by
    rw [List.isEmpty_eq_false]
    exact List.ne_nil_of_mem hid
  have hst : id ∈ staleOf now s.snapshots s.activeCrawls :=
    List.mem_filter.mpr ⟨hid, by rw [hcl]⟩
  have hsne : (staleOf now s.snapshots s.activeCrawls).isEmpty = false := by
    rw [List.isEmpty_eq_false]
    exact List.ne_nil_of_mem hst
  have hnotf : id ∉ s.activeCrawls.filter
      (fun i => !((staleOf now s.snapshots s.activeCrawls).contains i)) := by
    intro hin
    have h2 := (List.mem_filter.mp hin).2
    simp [hst] at h2
  have hkey : getKey ((staleOf now s.snapshots s.activeCrawls).foldl removeKey s.snapshots)
      id = none := by
    rw [getKey_foldl_removeKey]
    simp [hst]
  by_cases hres : (restoredOf now s.snapshots s.activeCrawls).isEmpty
  · have heq : reconcileOnStartup now fr s =
        { s with
          activeCrawls := s.activeCrawls.filter
            (fun i => !((staleOf now s.snapshots s.activeCrawls).contains i)),
          activeCrawlsWrites := s.activeCrawlsWrites + 1,
          snapshots := (staleOf now s.snapshots s.activeCrawls).foldl removeKey
            s.snapshots } := by
      unfold reconcileOnStartup
      simp [hne, hsne, hres]
    rw [heq]
    exact ⟨hnotf, hkey⟩
  · have heq : reconcileOnStartup now fr s =
        verifyAndRestoreProgressItems fr (restoredOf now s.snapshots s.activeCrawls)
          { s with
            activeCrawls := s.activeCrawls.filter
              (fun i => !((staleOf now s.snapshots s.activeCrawls).contains i)),
            activeCrawlsWrites := s.activeCrawlsWrites + 1,
            snapshots := (staleOf now s.snapshots s.activeCrawls).foldl removeKey
              s.snapshots,
            showCrawlingTab := true } := by
      unfold reconcileOnStartup
      simp [hne, hsne, hres]
    rw [heq]
    constructor
    · intro hin
      exact hnotf (verify_activeCrawls_mono _ _ _ _ hin)
    · exact verify_snapshots_none _ _ _ _ hkey

/-- Claim C7: startup reconciliation classifies every persisted active id
with a missing or unparsable snapshot, a terminal status, or an age above the
5-minute threshold as stale; stale ids are dropped from the persisted list
with their snapshots deleted (a total cleanup, no exception path), and every
other id is queued for server verification instead of being restored
directly. -/
theorem reconcile_classification (now : Nat) (fr : String → Option Nat)
    (s : TrackerState) (id : String) (hid : id ∈ s.activeCrawls) :
    (getKey s.snapshots id = none → classifyCrawl now s.snapshots id = .stale)
    ∧ (getKey s.snapshots id = some .junk → classifyCrawl now s.snapshots id = .stale)
    ∧ (∀ sn, getKey s.snapshots id = some (.snap sn) →
        (terminalStatuses.contains sn.item.status = true ∨
          300000 < now - jsOr sn.startedAt now) →
        classifyCrawl now s.snapshots id = .stale)
    ∧ (∀ sn, getKey s.snapshots id = some (.snap sn) →
        terminalStatuses.contains sn.item.status = false →
        now - jsOr sn.startedAt now ≤ 300000 →
        { sn.item with progressId := id, needsVerification := true } ∈
          restoredOf now s.snapshots s.activeCrawls)
    ∧ (classifyCrawl now s.snapshots id = .stale →
        id ∉ (reconcileOnStartup now fr s).activeCrawls
        ∧ getKey (reconcileOnStartup now fr s).snapshots id = none) := by
  refine ⟨?_, ?_, ?_, ?_, ?_⟩
  · intro h
    unfold classifyCrawl
    rw [h]
  · intro h
    unfold classifyCrawl
    rw [h]
  · intro sn h hcond
    unfold classifyCrawl
    rw [h]
    rcases hcond with hterm | hage
    · have hm : sn.item.status ∈ terminalStatuses := by simpa using hterm
      simp [hm]
    · simp [decide_eq_true hage]
  · intro sn h hterm hage
    have hcl : classifyCrawl now s.snapshots id =
        .restore { sn.item with progressId := id, needsVerification := true } := by
      unfold classifyCrawl
      rw [h]
      have hm : sn.item.status ∉ terminalStatuses := by simpa using hterm
      simp [hm, decide_eq_false (Nat.not_lt.mpr hage)]
    unfold restoredOf
    exact List.mem_filterMap.mpr ⟨id, hid, by rw [hcl]⟩
  · intro hcl
    exact reconcile_removes_stale now fr s id hid hcl

/-- Witness for C7 on the concrete reconciliation scenario: `A` has a
terminal snapshot, is classified stale, and is cleaned out of the persisted
state. -/
theorem reconcile_classification_witness :
    classifyCrawl 400000 S2.snapshots "A" = .stale
    ∧ "A" ∉ (reconcileOnStartup 400000 F2 S2).activeCrawls
    ∧ getKey (reconcileOnStartup 400000 F2 S2).snapshots "A" = none := by
  have h := reconcile_classification 400000 F2 S2 "A" (by decide)
  have hcl : classifyCrawl 400000 S2.snapshots "A" = .stale :=
    h.2.2.1 SA2 (by decide) (Or.inl (by decide))
  exact ⟨hcl, (h.2.2.2.2 hcl).1, (h.2.2.2.2 hcl).2⟩

/-- An ok response is not a removal outcome. -/
theorem fetchOk_not_gone (r : Option Nat) (h : fetchOk r = true) : fetchGone r = false := by
  cases r with
  | none => simp [fetchOk] at h
  | some code =>
    simp only [fetchOk] at h
    simp [fetchGone, h]

/-- A removal outcome is not an ok response. -/
theorem fetchGone_not_ok (r : Option Nat) (h : fetchGone r = true) : fetchOk r = false := by
  cases r with
  | none => simp [fetchOk]
  | some code =>
    simp only [fetchGone, Bool.and_eq_true, Bool.not_eq_true'] at h
    simp [fetchOk, h.1]

/-- Claim C2: for a persisted active list `[a, b, c]` where `a`'s snapshot is
terminal, `b`'s is stale by age, and `c`'s is verifiable, reconciliation
deletes the snapshots of `a` and `b` and rewrites the active-id list once for
that cleanup; if `c` verifies the list is exactly `[c]` (one write in total),
and if `c` fails verification (404 or network error) the list is empty and
`c`'s snapshot is deleted by the second single-write cleanup phase. -/
theorem reconcileOnStartup_cleanup_atomic
    (now : Nat) (fr : String → Option Nat) (s : TrackerState)
    (a b c : String) (sa sb sc : Snapshot)
    (_hab : a ≠ b) (hac : a ≠ c) (hbc : b ≠ c)
    (hlist : s.activeCrawls = [a, b, c])
    (ha : getKey s.snapshots a = some (.snap sa))
    (haterm : sa.item.status ∈ terminalStatuses)
    (hb : getKey s.snapshots b = some (.snap sb))
    (hbage : 300000 < now - jsOr sb.startedAt now)
    (hc : getKey s.snapshots c = some (.snap sc))
    (hcterm : sc.item.status ∉ terminalStatuses)
    (hcage : now - jsOr sc.startedAt now ≤ 300000) :
    (fetchOk (fr c) = true →
      (reconcileOnStartup now fr s).activeCrawls = [c]
      ∧ getKey (reconcileOnStartup now fr s).snapshots a = none
      ∧ getKey (reconcileOnStartup now fr s).snapshots b = none
      ∧ getKey (reconcileOnStartup now fr s).snapshots c = some (.snap sc)
      ∧ (reconcileOnStartup now fr s).activeCrawlsWrites = s.activeCrawlsWrites + 1)
    ∧ (fetchGone (fr c) = true →
      (reconcileOnStartup now fr s).activeCrawls = []
      ∧ getKey (reconcileOnStartup now fr s).snapshots a = none
      ∧ getKey (reconcileOnStartup now fr s).snapshots b = none
      ∧ getKey (reconcileOnStartup now fr s).snapshots c = none
      ∧ (reconcileOnStartup now fr s).activeCrawlsWrites = s.activeCrawlsWrites + 2) := by
  have hca : classifyCrawl now s.snapshots a = .stale := by
    unfold classifyCrawl
    rw [ha]
    simp [haterm]
  have hcb : classifyCrawl now s.snapshots b = .stale := by
    unfold classifyCrawl
    rw [hb]
    simp [decide_eq_true hbage]
  have hcc : classifyCrawl now s.snapshots c =
      .restore { sc.item with progressId := c, needsVerification := true } := by
    unfold classifyCrawl
    rw [hc]
    simp [hcterm, decide_eq_false (Nat.not_lt.mpr hcage)]
  have hstale : staleOf now s.snapshots s.activeCrawls = [a, b] := by
    rw [hlist]
    unfold staleOf
    simp [List.filter_cons, hca, hcb, hcc]
  have hrest : restoredOf now s.snapshots s.activeCrawls =
      [{ sc.item with progressId := c, needsVerification := true }] := by
    rw [hlist]
    unfold restoredOf
    simp [List.filterMap_cons, hca, hcb, hcc]
  have hne : s.activeCrawls.isEmpty = false := by rw [hlist]; rfl
  have hsne : (staleOf now s.snapshots s.activeCrawls).isEmpty = false := by
    rw [hstale]; rfl
  have hrne : (restoredOf now s.snapshots s.activeCrawls).isEmpty = false := by
    rw [hrest]; rfl
  have heq : reconcileOnStartup now fr s =
      verifyAndRestoreProgressItems fr (restoredOf now s.snapshots s.activeCrawls)
        { s with
          activeCrawls := s.activeCrawls.filter
            (fun i => !((staleOf now s.snapshots s.activeCrawls).contains i)),
          activeCrawlsWrites := s.activeCrawlsWrites + 1,
          snapshots := (staleOf now s.snapshots s.activeCrawls).foldl removeKey s.snapshots,
          showCrawlingTab := true } := by
    unfold reconcileOnStartup
    simp [hne, hsne, hrne]
  have hacf : s.activeCrawls.filter
      (fun i => !((staleOf now s.snapshots s.activeCrawls).contains i)) = [c] := by
    rw [hstale, hlist]
    simp [List.filter_cons, Ne.symm hac, Ne.symm hbc]
  have hρ : ({ sc.item with progressId := c, needsVerification := true } :
      CrawlProgressData).progressId = c := rfl
  have hcnab : c ∉ ([a, b] : List String) := by simp [Ne.symm hac, Ne.symm hbc]
  constructor
  · intro hok
    have hgone := fetchOk_not_gone _ hok
    have hrem : removalsOf fr [{ sc.item with progressId := c, needsVerification := true }]
        = [] := by
      unfold removalsOf
      simp [hρ, hgone]
    refine ⟨?_, ?_, ?_, ?_, ?_⟩
    · rw [heq, hrest, verify_activeCrawls_eq, hrem]
      show s.activeCrawls.filter
        (fun i => !((staleOf now s.snapshots s.activeCrawls).contains i)) = [c]
      exact hacf
    · rw [heq, hrest, verify_snapshots_eq, hrem]
      show getKey ((staleOf now s.snapshots s.activeCrawls).foldl removeKey s.snapshots)
        a = none
      rw [hstale, getKey_foldl_removeKey]
      simp
    · rw [heq, hrest, verify_snapshots_eq, hrem]
      show getKey ((staleOf now s.snapshots s.activeCrawls).foldl removeKey s.snapshots)
        b = none
      rw [hstale, getKey_foldl_removeKey]
      simp
    · rw [heq, hrest, verify_snapshots_eq, hrem]
      show getKey ((staleOf now s.snapshots s.activeCrawls).foldl removeKey s.snapshots)
        c = some (.snap sc)
      rw [hstale, getKey_foldl_removeKey, if_neg hcnab]
      exact hc
    · rw [heq, hrest, verify_writes_eq, hrem]
      show s.activeCrawlsWrites + 1 = s.activeCrawlsWrites + 1
      rfl
  · intro hgone
    have hok' := fetchGone_not_ok _ hgone
    have hrem : removalsOf fr [{ sc.item with progressId := c, needsVerification := true }]
        = [c] := by
      unfold removalsOf
      simp [hρ, hgone]
    have hremne : (removalsOf fr
        [{ sc.item with progressId := c, needsVerification := true }]).isEmpty = false := by
      rw [hrem]; rfl
    refine ⟨?_, ?_, ?_, ?_, ?_⟩
    · rw [heq, hrest, verify_activeCrawls_eq, hrem]
      show (if (false : Bool) = true then _ else _) = ([] : List String)
      rw [if_neg (by simp)]
      rw [hacf]
      simp
    · rw [heq, hrest, verify_snapshots_eq, hrem]
      rw [if_neg (by simp [hremne])]
      show getKey (([c] : List String).foldl removeKey
        ((staleOf now s.snapshots s.activeCrawls).foldl removeKey s.snapshots)) a = none
      have hanc : a ∉ ([c] : List String) := by simp [hac]
      rw [hstale, getKey_foldl_removeKey, if_neg hanc, getKey_foldl_removeKey]
      simp
    · rw [heq, hrest, verify_snapshots_eq, hrem]
      rw [if_neg (by simp [hremne])]
      show getKey (([c] : List String).foldl removeKey
        ((staleOf now s.snapshots s.activeCrawls).foldl removeKey s.snapshots)) b = none
      have hbnc : b ∉ ([c] : List String) := by simp [hbc]
      rw [hstale, getKey_foldl_removeKey, if_neg hbnc, getKey_foldl_removeKey]
      simp
    · rw [heq, hrest, verify_snapshots_eq, hrem]
      rw [if_neg (by simp [hremne])]
      show getKey (([c] : List String).foldl removeKey
        ((staleOf now s.snapshots s.activeCrawls).foldl removeKey s.snapshots)) c = none
      rw [getKey_foldl_removeKey]
      simp
    · rw [heq, hrest, verify_writes_eq, hrem]
      show s.activeCrawlsWrites + 1 + 1 = s.activeCrawlsWrites + 2
      rfl

/-- Witness for C2 on the concrete `[A, B, C]` scenario against the fetch
stub that verifies `C`. -/
theorem reconcileOnStartup_cleanup_atomic_witness :
    (reconcileOnStartup 400000 F2 S2).activeCrawls = ["C"]
    ∧ getKey (reconcileOnStartup 400000 F2 S2).snapshots "A" = none
    ∧ getKey (reconcileOnStartup 400000 F2 S2).snapshots "B" = none
    ∧ getKey (reconcileOnStartup 400000 F2 S2).snapshots "C" = some (.snap SC2)
    ∧ (reconcileOnStartup 400000 F2 S2).activeCrawlsWrites = S2.activeCrawlsWrites + 1 :=
  (reconcileOnStartup_cleanup_atomic 400000 F2 S2 "A" "B" "C" SA2 SB2 SC2
    (by decide) (by decide) (by decide) (by decide) (by decide) (by decide)
    (by decide) (by decide) (by decide) (by decide) (by decide)).1 (by decide)

end Archon
